import Mathlib

/-!
Verification of the token ledger core and the TypeScript instruction
encoders of this repository.  The encoder definitions are shallow
embeddings of the TypeScript sources (`instructions/burn.ts` and the
freeze/thaw/revoke builders); the ledger state machine is modelled from
the repository's specification of the on-chain Token Program, whose Rust
source is not part of this snapshot.
-/

/-- Public keys are abstracted as natural numbers; the model never inspects
their 32-byte representation. -/
abbrev PublicKey := Nat

/-- The unsigned 64-bit ceiling used by every balance/supply check. -/
def U64_MAX : Nat := 2 ^ 64 - 1

/-! ## Client-side instruction encoding (from src/token/ts/src/instructions) -/

/-- The instruction discriminants of the Token Program.  `types.ts` is not in
the snapshot; the enumeration and its stable single-byte values are modelled
from the spec's instruction list in the order the program declares them. -/
inductive TokenInstruction where
  | InitializeMint
  | InitializeAccount
  | InitializeMultisig
  | Transfer
  | Approve
  | Revoke
  | SetAuthority
  | MintTo
  | Burn
  | CloseAccount
  | FreezeAccount
  | ThawAccount
  deriving DecidableEq, Repr

/-- The single-byte discriminant of an instruction. -/
def TokenInstruction.toByte : TokenInstruction → Nat
  | .InitializeMint => 0
  | .InitializeAccount => 1
  | .InitializeMultisig => 2
  | .Transfer => 3
  | .Approve => 4
  | .Revoke => 5
  | .SetAuthority => 6
  | .MintTo => 7
  | .Burn => 8
  | .CloseAccount => 9
  | .FreezeAccount => 10
  | .ThawAccount => 11

/-- Little-endian byte encoding of `n` on `k` bytes, as the `u64` layout of
`@solana/buffer-layout-utils` writes a bigint into a buffer. -/
def leBytes : Nat → Nat → List Nat
  | 0, _ => []
  | k + 1, n => n % 256 :: leBytes k (n / 256)

/-- Little-endian byte decoding, the reading direction of the same layout. -/
def leDecode : List Nat → Nat
  | [] => 0
  | b :: bs => b + 256 * leDecode bs

/-- One entry of a transaction's account reference list. -/
structure AccountMeta where
  pubkey : PublicKey
  isSigner : Bool
  isWritable : Bool
  deriving DecidableEq, Repr

/-- A built instruction: account references, program id and data bytes. -/
structure TransactionInstruction where
  keys : List AccountMeta
  programId : PublicKey
  data : List Nat
  deriving DecidableEq, Repr

/-- Modelled from the spec: `addSigners` (instructions/internal.ts, not in
the snapshot) appends the authority and any multisig signer keys after an
instruction's fixed account references, per the spec's account reference
list ("every instruction declares, in a fixed order, which storage slots it
reads/writes and which act as signers"). -/
def addSigners (keys : List AccountMeta) (ownerOrAuthority : PublicKey)
    (multiSigners : List PublicKey) : List AccountMeta :=
  if multiSigners.isEmpty then
    keys ++ [⟨ownerOrAuthority, true, false⟩]
  else
    keys ++ ⟨ownerOrAuthority, false, false⟩ ::
      multiSigners.map (fun s => ⟨s, true, false⟩)

/-- A JavaScript `number | bigint` amount argument.  `num n` stands for a
JavaScript number whose exact integer value is `n` (only meaningful when `n`
is exactly representable as a double); `big n` for the bigint `n`. -/
inductive JSNumber where
  | num (n : Nat)
  | big (n : Nat)
  deriving DecidableEq, Repr

/-- `BigInt(amount)`: both representations convert to their integer value. -/
def JSNumber.toBigInt : JSNumber → Nat
  | .num n => n
  | .big n => n

/-- `createBurnInstruction` from src/token/ts/src/instructions/burn.ts: the
account and mint slots (writable, non-signer), the owner and multisig
signers appended by `addSigners`, and the 9-byte data of the
`[u8 instruction, u64 amount]` layout. -/
def createBurnInstruction (account mint owner : PublicKey) (amount : JSNumber)
    (multiSigners : List PublicKey) (programId : PublicKey) :
    TransactionInstruction :=
  let keys := addSigners
    [⟨account, false, true⟩, ⟨mint, false, true⟩] owner multiSigners
  let data := TokenInstruction.toByte .Burn :: leBytes 8 amount.toBigInt
  { keys := keys, programId := programId, data := data }

/-- `createFreezeAccountInstruction`: account (writable) and mint
(read-only) slots, freeze authority via `addSigners`, one data byte. -/
def createFreezeAccountInstruction (account mint authority : PublicKey)
    (multiSigners : List PublicKey) (programId : PublicKey) :
    TransactionInstruction :=
  let keys := addSigners
    [⟨account, false, true⟩, ⟨mint, false, false⟩] authority multiSigners
  let data := [TokenInstruction.toByte .FreezeAccount]
  { keys := keys, programId := programId, data := data }

/-- `createThawAccountInstruction`: same account list as freeze, one data
byte. -/
def createThawAccountInstruction (account mint authority : PublicKey)
    (multiSigners : List PublicKey) (programId : PublicKey) :
    TransactionInstruction :=
  let keys := addSigners
    [⟨account, false, true⟩, ⟨mint, false, false⟩] authority multiSigners
  let data := [TokenInstruction.toByte .ThawAccount]
  { keys := keys, programId := programId, data := data }

/-- `createRevokeInstruction`: the token account slot (writable), owner via
`addSigners`, one data byte. -/
def createRevokeInstruction (account owner : PublicKey)
    (multiSigners : List PublicKey) (programId : PublicKey) :
    TransactionInstruction :=
  let keys := addSigners [⟨account, false, true⟩] owner multiSigners
  let data := [TokenInstruction.toByte .Revoke]
  { keys := keys, programId := programId, data := data }

/-! ## The Token Ledger Core, modelled from the spec

The on-chain program's Rust source is not part of this snapshot; the state
machine below is modelled from the spec's data model (section 3), Authority
Resolver (4.2), Instruction Processor table (4.3) and Native-Wrap Adapter
(4.4).  Storage slots are indices into per-kind record lists. -/

/-- The error taxonomy of the spec (section 7). -/
inductive TokenError where
  | InvalidAccountData
  | AccountNotInitialized
  | AlreadyInitialized
  | MissingRequiredSignature
  | InsufficientFunds
  | AccountFrozen
  | NumericOverflow
  | MintMismatch
  | FixedSupply
  | FreezeDisabled
  | InvalidInstructionData
  deriving DecidableEq, Repr

/-- Modelled from the spec: an authority is a direct public key or a
reference to a Multisig slot (design note: "represent as a tagged variant
Direct(PublicKey) | Multisig(SlotRef)"). -/
inductive Authority where
  | direct (key : PublicKey)
  | multisig (slot : Nat)
  deriving DecidableEq, Repr

/-- Modelled from the spec: the Mint record (section 3). -/
structure Mint where
  mintAuthority : Option Authority
  supply : Nat
  decimals : Nat
  isInitialized : Bool
  freezeAuthority : Option Authority
  deriving DecidableEq, Repr

/-- The lifecycle state of a Token Account. -/
inductive AccountState where
  | Uninitialized
  | Initialized
  | Frozen
  deriving DecidableEq, Repr

/-- Modelled from the spec: the Token Account record (section 3).
`nativeReserve` is the native balance held in the same storage slot. -/
structure TokenAccount where
  mint : Nat
  owner : Authority
  amount : Nat
  delegate : Option Authority
  delegatedAmount : Nat
  state : AccountState
  isNative : Bool
  nativeReserve : Nat
  closeAuthority : Option Authority
  deriving DecidableEq, Repr

/-- Modelled from the spec: the Multisig record (section 3):
required/total signer counts and the configured signer keys. -/
structure Multisig where
  m : Nat
  n : Nat
  signers : List PublicKey
  isInitialized : Bool
  deriving DecidableEq, Repr

/-- The ledger: all records, owned by the program, indexed by slot. -/
structure Ledger where
  mints : List Mint
  accounts : List TokenAccount
  multisigs : List Multisig
  deriving DecidableEq, Repr

/-- The reserved slot identifying the native-wrap Mint (spec section 6:
"one reserved constant public key identifies the native-wrap Mint"). -/
def nativeMintSlot : Nat := 0

/-- A zeroed Token Account record, the content of a deallocated slot. -/
def emptyTokenAccount : TokenAccount :=
  { mint := 0, owner := .direct 0, amount := 0, delegate := none,
    delegatedAmount := 0, state := .Uninitialized, isNative := false,
    nativeReserve := 0, closeAuthority := none }

/-- Modelled from the spec: whether at least `m` of a Multisig's `n`
configured signers are present in the signer set (order irrelevant, each
configured signer counted once). -/
def multisigSatisfied (ms : Multisig) (sg : List PublicKey) : Bool :=
  ms.isInitialized && ms.m ≤ (ms.signers.filter (fun k => sg.contains k)).length

/-- Modelled from the spec: the Authority Resolver (section 4.2), a pure
check.  Direct case: the key is in the signer set; multisig case: the
record is initialized and the threshold is met. -/
def authorized (l : Ledger) (a : Authority) (sg : List PublicKey) : Bool :=
  match a with
  | .direct k => sg.contains k
  | .multisig i =>
    match l.multisigs[i]? with
    | some ms => multisigSatisfied ms sg
    | none => false

/-- The Authority Resolver's verdict: `Authorized` is `.ok ()`, otherwise
`MissingRequiredSignature` (spec section 4.2). -/
def checkAuthority (l : Ledger) (a : Authority) (sg : List PublicKey) :
    Except TokenError Unit :=
  if authorized l a sg then .ok () else .error .MissingRequiredSignature

/-- The outcome of one instruction: the new ledger on success, or an error
together with the state the processor left behind. -/
inductive TxResult where
  | ok (l : Ledger)
  | err (e : TokenError) (l : Ledger)
  deriving DecidableEq, Repr

/-- Debit `amt` from an account: the balance, the shadow native balance if
the account is native, and the delegated allowance when the delegate
authority was used (cleared once fully consumed). -/
def debitAccount (a : TokenAccount) (amt : Nat) (useDelegate : Bool) :
    TokenAccount :=
  let base := { a with
    amount := a.amount - amt,
    nativeReserve := if a.isNative then a.nativeReserve - amt else a.nativeReserve }
  if useDelegate then
    { base with
      delegatedAmount := a.delegatedAmount - amt,
      delegate := if a.delegatedAmount - amt = 0 then none else a.delegate }
  else base

/-- Credit `amt` to an account, moving the shadow native balance alongside
for a native account (spec section 4.4). -/
def creditAccount (d : TokenAccount) (amt : Nat) : TokenAccount :=
  { d with
    amount := d.amount + amt,
    nativeReserve := if d.isNative then d.nativeReserve + amt else d.nativeReserve }

/-- Modelled from the spec: InitializeMint (4.3): the slot must exist and
not yet be initialized; sets the Mint fields with zero supply. -/
def processInitMint (slot decimals : Nat) (mintAuth : Authority)
    (freezeAuth : Option Authority) (l : Ledger) : TxResult :=
  match l.mints[slot]? with
  | none => .err .InvalidAccountData l
  | some mt =>
    if mt.isInitialized then .err .AlreadyInitialized l
    else
      let mt2 : Mint :=
        { mintAuthority := some mintAuth, supply := 0, decimals := decimals,
          isInitialized := true, freezeAuthority := freezeAuth }
      .ok { l with mints := l.mints.set slot mt2 }

/-- Modelled from the spec: InitializeAccount (4.3): the slot must exist and
not yet be initialized, the referenced Mint must be initialized; the amount
starts at 0, or at the slot's native balance for the native-wrap Mint
(4.4). -/
def processInitAccount (slot mintSlot : Nat) (owner : Authority)
    (l : Ledger) : TxResult :=
  match l.accounts[slot]?, l.mints[mintSlot]? with
  | some acc, some mt =>
    if acc.state ≠ .Uninitialized then .err .AlreadyInitialized l
    else if ¬ mt.isInitialized then .err .AccountNotInitialized l
    else
      let nativeFlag := mintSlot = nativeMintSlot
      let acc2 : TokenAccount :=
        { mint := mintSlot, owner := owner,
          amount := if nativeFlag then acc.nativeReserve else 0,
          delegate := none, delegatedAmount := 0, state := .Initialized,
          isNative := decide nativeFlag, nativeReserve := acc.nativeReserve,
          closeAuthority := none }
      .ok { l with accounts := l.accounts.set slot acc2 }
  | _, _ => .err .InvalidAccountData l

/-- Modelled from the spec: InitializeMultisig (4.3): requires
`1 ≤ m ≤ n ≤ 11` where `n` is the number of provided signer keys, and an
uninitialized existing slot; stores the signer keys. -/
def processInitMultisig (slot malue : Nat) (signerKeys : List PublicKey)
    (l : Ledger) : TxResult :=
  if ¬ (1 ≤ malue ∧ malue ≤ signerKeys.length ∧ signerKeys.length ≤ 11) then
    .err .InvalidInstructionData l
  else match l.multisigs[slot]? with
  | none => .err .InvalidAccountData l
  | some ms =>
    if ms.isInitialized then .err .AlreadyInitialized l
    else
      let ms2 : Multisig :=
        { m := malue, n := signerKeys.length, signers := signerKeys,
          isInitialized := true }
      .ok { l with multisigs := l.multisigs.set slot ms2 }

/-- Modelled from the spec: the account checks of Transfer (4.3): both
accounts must exist, be initialized, not frozen, and reference the same
Mint. -/
def transferAccountsChecked (src dst : Nat) (l : Ledger) :
    Except TokenError (TokenAccount × TokenAccount) :=
  match l.accounts[src]?, l.accounts[dst]? with
  | some s, some d =>
    if s.state = .Uninitialized then .error .AccountNotInitialized
    else if d.state = .Uninitialized then .error .AccountNotInitialized
    else if s.state = .Frozen then .error .AccountFrozen
    else if d.state = .Frozen then .error .AccountFrozen
    else if s.mint ≠ d.mint then .error .MintMismatch
    else .ok (s, d)
  | _, _ => .error .InvalidAccountData

/-- Modelled from the spec: the balance checks of Transfer (4.3): the
source balance (and its native balance when the account is native) must
cover the amount, and the destination additions must stay within the
unsigned 64-bit range. -/
def transferAmountChecked (amt : Nat) (s d : TokenAccount) :
    Except TokenError Unit :=
  if s.amount < amt then .error .InsufficientFunds
  else if s.isNative ∧ s.nativeReserve < amt then .error .InsufficientFunds
  else if U64_MAX < d.amount + amt then .error .NumericOverflow
  else if d.isNative ∧ U64_MAX < d.nativeReserve + amt then .error .NumericOverflow
  else .ok ()

/-- Modelled from the spec: the authority check of Transfer (4.3): the
authority must resolve for the owner, or for the delegate with sufficient
delegated allowance.  Returns whether the delegate authority was used. -/
def transferAuthChecked (amt : Nat) (auth : Authority) (sg : List PublicKey)
    (s : TokenAccount) (l : Ledger) : Except TokenError Bool :=
  if auth = s.owner then
    if authorized l s.owner sg then .ok false
    else .error .MissingRequiredSignature
  else if s.delegate = some auth then
    if ¬ authorized l auth sg then .error .MissingRequiredSignature
    else if s.delegatedAmount < amt then .error .InsufficientFunds
    else .ok true
  else .error .MissingRequiredSignature

/-- Modelled from the spec: all precondition checks of Transfer (4.3),
evaluated before any state change.  Returns the two validated records and
whether the delegate authority was used. -/
def transferChecked (src dst amt : Nat) (auth : Authority)
    (sg : List PublicKey) (l : Ledger) :
    Except TokenError (TokenAccount × TokenAccount × Bool) :=
  match transferAccountsChecked src dst l with
  | .error e => .error e
  | .ok (s, d) =>
    match transferAmountChecked amt s d with
    | .error e => .error e
    | .ok _ =>
      match transferAuthChecked amt auth sg s l with
      | .error e => .error e
      | .ok u => .ok (s, d, u)

/-- The effect of a successful Transfer: debit the source slot, credit the
destination slot. -/
def applyTransfer (l : Ledger) (src dst : Nat) (s d : TokenAccount)
    (amt : Nat) (useDel : Bool) : Ledger :=
  { l with accounts := (l.accounts.set src (debitAccount s amt useDel)).set dst (creditAccount d amt) }

/-- Modelled from the spec: Transfer (4.3): a self-transfer (source slot =
destination slot) always succeeds without balance effect or signer check;
otherwise the preconditions of `transferChecked` are evaluated first and
only then are the source debited and the destination credited. -/
def processTransfer (src dst amt : Nat) (auth : Authority)
    (sg : List PublicKey) (l : Ledger) : TxResult :=
  if src = dst then .ok l
  else match transferChecked src dst amt auth sg l with
  | .error e => .err e l
  | .ok (s, d, useDel) => .ok (applyTransfer l src dst s d amt useDel)

/-- Modelled from the spec: Approve (4.3): the source must be initialized
and its owner authorize; sets the delegate and the delegated amount. -/
def processApprove (slot : Nat) (del : Authority) (amt : Nat)
    (sg : List PublicKey) (l : Ledger) : TxResult :=
  match l.accounts[slot]? with
  | none => .err .InvalidAccountData l
  | some a =>
    if a.state = .Uninitialized then .err .AccountNotInitialized l
    else if ¬ authorized l a.owner sg then .err .MissingRequiredSignature l
    else
      let a2 := { a with delegate := some del, delegatedAmount := amt }
      .ok { l with accounts := l.accounts.set slot a2 }

/-- Modelled from the spec: Revoke (4.3): the source must be initialized
and its owner authorize; clears the delegate and the delegated amount. -/
def processRevoke (slot : Nat) (sg : List PublicKey) (l : Ledger) :
    TxResult :=
  match l.accounts[slot]? with
  | none => .err .InvalidAccountData l
  | some a =>
    if a.state = .Uninitialized then .err .AccountNotInitialized l
    else if ¬ authorized l a.owner sg then .err .MissingRequiredSignature l
    else
      let a2 := { a with delegate := none, delegatedAmount := 0 }
      .ok { l with accounts := l.accounts.set slot a2 }

/-- Modelled from the spec: MintTo (4.3): the Mint must be initialized with
a present mint authority that resolves, the destination must be an
initialized, unfrozen account of that Mint, and both the supply and the
destination additions are overflow-checked. -/
def processMintTo (mintSlot dst amt : Nat) (sg : List PublicKey)
    (l : Ledger) : TxResult :=
  match l.mints[mintSlot]?, l.accounts[dst]? with
  | some mt, some d =>
    if ¬ mt.isInitialized then .err .AccountNotInitialized l
    else if d.state = .Uninitialized then .err .AccountNotInitialized l
    else if d.state = .Frozen then .err .AccountFrozen l
    else if d.mint ≠ mintSlot then .err .MintMismatch l
    else if U64_MAX < mt.supply + amt then .err .NumericOverflow l
    else if U64_MAX < d.amount + amt then .err .NumericOverflow l
    else if d.isNative ∧ U64_MAX < d.nativeReserve + amt then
      .err .NumericOverflow l
    else match mt.mintAuthority with
    | none => .err .FixedSupply l
    | some k =>
      if ¬ authorized l k sg then .err .MissingRequiredSignature l
      else
        let mt2 := { mt with supply := mt.supply + amt }
        .ok { l with mints := l.mints.set mintSlot mt2, accounts := l.accounts.set dst (creditAccount d amt) }
  | _, _ => .err .InvalidAccountData l

/-- Modelled from the spec: Burn (4.3): the account must be initialized,
not frozen and not native (burning wrapped native is disallowed, 4.4), the
authority must resolve for the owner or for a delegate with sufficient
allowance, the balance must cover the amount, and the supply decrement is
underflow-checked. -/
def processBurn (slot amt : Nat) (auth : Authority) (sg : List PublicKey)
    (l : Ledger) : TxResult :=
  match l.accounts[slot]? with
  | none => .err .InvalidAccountData l
  | some a =>
    if a.state = .Uninitialized then .err .AccountNotInitialized l
    else if a.state = .Frozen then .err .AccountFrozen l
    else if a.isNative then .err .InvalidAccountData l
    else if a.amount < amt then .err .InsufficientFunds l
    else match l.mints[a.mint]? with
    | none => .err .InvalidAccountData l
    | some mt =>
      if mt.supply < amt then .err .NumericOverflow l
      else if auth = a.owner then
        if authorized l a.owner sg then
          let mt2 := { mt with supply := mt.supply - amt }
          .ok { l with accounts := l.accounts.set slot (debitAccount a amt false), mints := l.mints.set a.mint mt2 }
        else .err .MissingRequiredSignature l
      else if a.delegate = some auth then
        if ¬ authorized l auth sg then .err .MissingRequiredSignature l
        else if a.delegatedAmount < amt then .err .InsufficientFunds l
        else
          let mt2 := { mt with supply := mt.supply - amt }
          .ok { l with accounts := l.accounts.set slot (debitAccount a amt true), mints := l.mints.set a.mint mt2 }
      else .err .MissingRequiredSignature l

/-- Modelled from the spec: CloseAccount (4.3, 4.4): a non-native account
must have zero balance; the close authority (or the owner when none is set)
must resolve; the slot's native balance moves to the destination and the
slot is zeroed. -/
def processClose (slot dst : Nat) (sg : List PublicKey) (l : Ledger) :
    TxResult :=
  if slot = dst then .err .InvalidAccountData l
  else match l.accounts[slot]?, l.accounts[dst]? with
  | some a, some d =>
    if a.state = .Uninitialized then .err .AccountNotInitialized l
    else if a.state = .Frozen then .err .AccountFrozen l
    else if ¬ a.isNative ∧ a.amount ≠ 0 then .err .InvalidAccountData l
    else if ¬ authorized l (a.closeAuthority.getD a.owner) sg then
      .err .MissingRequiredSignature l
    else if U64_MAX < d.nativeReserve + a.nativeReserve then
      .err .NumericOverflow l
    else
      let d2 := { d with nativeReserve := d.nativeReserve + a.nativeReserve }
      .ok { l with accounts := (l.accounts.set dst d2).set slot emptyTokenAccount }
  | _, _ => .err .InvalidAccountData l

/-- Modelled from the spec: FreezeAccount (4.3): the Mint must have a
freeze authority that resolves; sets the account state to Frozen. -/
def processFreeze (slot : Nat) (sg : List PublicKey) (l : Ledger) :
    TxResult :=
  match l.accounts[slot]? with
  | none => .err .InvalidAccountData l
  | some a =>
    if a.state = .Uninitialized then .err .AccountNotInitialized l
    else match l.mints[a.mint]? with
    | none => .err .InvalidAccountData l
    | some mt =>
      match mt.freezeAuthority with
      | none => .err .FreezeDisabled l
      | some k =>
        if ¬ authorized l k sg then .err .MissingRequiredSignature l
        else
          let a2 := { a with state := AccountState.Frozen }
          .ok { l with accounts := l.accounts.set slot a2 }

/-- Modelled from the spec: ThawAccount (4.3): the Mint must have a freeze
authority that resolves; sets the account state back to Initialized. -/
def processThaw (slot : Nat) (sg : List PublicKey) (l : Ledger) :
    TxResult :=
  match l.accounts[slot]? with
  | none => .err .InvalidAccountData l
  | some a =>
    if a.state = .Uninitialized then .err .AccountNotInitialized l
    else match l.mints[a.mint]? with
    | none => .err .InvalidAccountData l
    | some mt =>
      match mt.freezeAuthority with
      | none => .err .FreezeDisabled l
      | some k =>
        if ¬ authorized l k sg then .err .MissingRequiredSignature l
        else
          let a2 := { a with state := AccountState.Initialized }
          .ok { l with accounts := l.accounts.set slot a2 }

/-- The four kinds of authority SetAuthority can replace (4.3). -/
inductive AuthorityKind where
  | mintTokens
  | freezer
  | accountOwner
  | closer
  deriving DecidableEq, Repr

/-- Modelled from the spec: SetAuthority (4.3): the current authority of
the named kind must resolve; replaces it with the new value.  Setting a
Mint authority that is already `None` fails (FixedSupply / FreezeDisabled);
an account owner cannot be set to `None`. -/
def processSetAuthority (slot : Nat) (kind : AuthorityKind)
    (newAuth : Option Authority) (sg : List PublicKey) (l : Ledger) :
    TxResult :=
  match kind with
  | .mintTokens =>
    match l.mints[slot]? with
    | none => .err .InvalidAccountData l
    | some mt =>
      if ¬ mt.isInitialized then .err .AccountNotInitialized l
      else match mt.mintAuthority with
      | none => .err .FixedSupply l
      | some k =>
        if ¬ authorized l k sg then .err .MissingRequiredSignature l
        else
          let mt2 := { mt with mintAuthority := newAuth }
          .ok { l with mints := l.mints.set slot mt2 }
  | .freezer =>
    match l.mints[slot]? with
    | none => .err .InvalidAccountData l
    | some mt =>
      if ¬ mt.isInitialized then .err .AccountNotInitialized l
      else match mt.freezeAuthority with
      | none => .err .FreezeDisabled l
      | some k =>
        if ¬ authorized l k sg then .err .MissingRequiredSignature l
        else
          let mt2 := { mt with freezeAuthority := newAuth }
          .ok { l with mints := l.mints.set slot mt2 }
  | .accountOwner =>
    match l.accounts[slot]? with
    | none => .err .InvalidAccountData l
    | some a =>
      if a.state = .Uninitialized then .err .AccountNotInitialized l
      else if ¬ authorized l a.owner sg then .err .MissingRequiredSignature l
      else match newAuth with
      | none => .err .InvalidInstructionData l
      | some na =>
        let a2 := { a with owner := na }
        .ok { l with accounts := l.accounts.set slot a2 }
  | .closer =>
    match l.accounts[slot]? with
    | none => .err .InvalidAccountData l
    | some a =>
      if a.state = .Uninitialized then .err .AccountNotInitialized l
      else if ¬ authorized l (a.closeAuthority.getD a.owner) sg then
        .err .MissingRequiredSignature l
      else
        let a2 := { a with closeAuthority := newAuth }
        .ok { l with accounts := l.accounts.set slot a2 }

/-- The instruction set of the processor (4.3). -/
inductive Instr where
  | initMint (slot decimals : Nat) (mintAuth : Authority)
      (freezeAuth : Option Authority)
  | initAccount (slot mintSlot : Nat) (owner : Authority)
  | initMultisig (slot m : Nat) (signerKeys : List PublicKey)
  | transfer (src dst amt : Nat) (auth : Authority) (sg : List PublicKey)
  | approve (slot : Nat) (del : Authority) (amt : Nat) (sg : List PublicKey)
  | revoke (slot : Nat) (sg : List PublicKey)
  | setAuthority (slot : Nat) (kind : AuthorityKind)
      (newAuth : Option Authority) (sg : List PublicKey)
  | mintTo (mintSlot dst amt : Nat) (sg : List PublicKey)
  | burn (slot amt : Nat) (auth : Authority) (sg : List PublicKey)
  | closeAccount (slot dst : Nat) (sg : List PublicKey)
  | freezeAccount (slot : Nat) (sg : List PublicKey)
  | thawAccount (slot : Nat) (sg : List PublicKey)
  deriving DecidableEq, Repr

/-- The Instruction Processor: dispatch one instruction. -/
def exec : Instr → Ledger → TxResult
  | .initMint slot dec ma fa, l => processInitMint slot dec ma fa l
  | .initAccount slot ms ow, l => processInitAccount slot ms ow l
  | .initMultisig slot m keys, l => processInitMultisig slot m keys l
  | .transfer src dst amt auth sg, l => processTransfer src dst amt auth sg l
  | .approve slot del amt sg, l => processApprove slot del amt sg l
  | .revoke slot sg, l => processRevoke slot sg l
  | .setAuthority slot kind na sg, l => processSetAuthority slot kind na sg l
  | .mintTo ms dst amt sg, l => processMintTo ms dst amt sg l
  | .burn slot amt auth sg, l => processBurn slot amt auth sg l
  | .closeAccount slot dst sg, l => processClose slot dst sg l
  | .freezeAccount slot sg, l => processFreeze slot sg l
  | .thawAccount slot sg, l => processThaw slot sg l

/-- The ledger an instruction leaves behind: the new state on success, the
state the processor returned on failure. -/
def stepLedger (op : Instr) (l : Ledger) : Ledger :=
  match exec op l with
  | .ok l2 => l2
  | .err _ l2 => l2

/-- A sequence of instructions applied in order. -/
def applyOps (ops : List Instr) (l : Ledger) : Ledger :=
  ops.foldl (fun st op => stepLedger op st) l

/-! ## Little-endian encoding lemmas -/

/-- A `k`-byte little-endian encoding has exactly `k` bytes. -/
theorem leBytes_length (k : Nat) : ∀ n, (leBytes k n).length = k := by
  induction k with
  | zero => intro n; rfl
  | succ k ih => intro n; simp [leBytes, ih]

/-- Every entry of a little-endian encoding is a byte value. -/
theorem leBytes_lt_256 (k : Nat) : ∀ n, ∀ b ∈ leBytes k n, b < 256 := by
  induction k with
  | zero => intro n b hb; simp [leBytes] at hb
  | succ k ih =>
    intro n b hb
    simp only [leBytes, List.mem_cons] at hb
    rcases hb with rfl | hb
    · exact Nat.mod_lt _ (by omega)
    · exact ih _ b hb

/-- Decoding a `k`-byte little-endian encoding recovers the value modulo
`256 ^ k`. -/
theorem leDecode_leBytes (k : Nat) : ∀ n, leDecode (leBytes k n) = n % 256 ^ k := by
  induction k with
  | zero => intro n; simp [leBytes, leDecode, Nat.mod_one]
  | succ k ih =>
    intro n
    have hpow : (256:Nat) ^ (k + 1) = 256 * 256 ^ k := by ring
    simp only [leBytes, leDecode, ih, hpow]
    exact (Nat.mod_mul).symm

/-! ## Claims about the instruction encoders -/

/-- C7: for every amount below 2^64, the data of a Burn instruction is
exactly 9 bytes: the single-byte Burn discriminant followed by the amount
as an 8-byte little-endian unsigned integer. -/
theorem burn_instruction_data_layout (account mint owner pid : PublicKey)
    (ms : List PublicKey) (amt : Nat) (h : amt < 2 ^ 64) :
    (createBurnInstruction account mint owner (.big amt) ms pid).data.length = 9 ∧
    (createBurnInstruction account mint owner (.big amt) ms pid).data =
      TokenInstruction.toByte .Burn :: leBytes 8 amt ∧
    leDecode ((createBurnInstruction account mint owner (.big amt) ms pid).data.drop 1) = amt ∧
    ∀ b ∈ (createBurnInstruction account mint owner (.big amt) ms pid).data.drop 1, b < 256 := by
  refine ⟨?_, rfl, ?_, ?_⟩
  · simp [createBurnInstruction, leBytes_length]
  · have : (createBurnInstruction account mint owner (.big amt) ms pid).data.drop 1
        = leBytes 8 amt := rfl
    rw [this, leDecode_leBytes]
    exact Nat.mod_eq_of_lt (by simpa using h)
  · intro b hb
    exact leBytes_lt_256 8 amt b hb

/-- Witness for C7 at amount 1000. -/
theorem burn_instruction_data_layout_witness :
    (createBurnInstruction 1 2 3 (.big 1000) [] 4).data.length = 9 ∧
    (createBurnInstruction 1 2 3 (.big 1000) [] 4).data =
      TokenInstruction.toByte .Burn :: leBytes 8 1000 ∧
    leDecode ((createBurnInstruction 1 2 3 (.big 1000) [] 4).data.drop 1) = 1000 ∧
    ∀ b ∈ (createBurnInstruction 1 2 3 (.big 1000) [] 4).data.drop 1, b < 256 :=
  burn_instruction_data_layout 1 2 3 4 [] 1000 (by norm_num)

/-- C8: the data of each of the Revoke, FreezeAccount and ThawAccount
instructions is exactly one byte, the instruction's discriminant. -/
theorem single_byte_instruction_layouts :
    (∀ account mint authority pid : PublicKey, ∀ ms : List PublicKey,
      (createFreezeAccountInstruction account mint authority ms pid).data =
        [TokenInstruction.toByte .FreezeAccount] ∧
      (createFreezeAccountInstruction account mint authority ms pid).data.length = 1) ∧
    (∀ account mint authority pid : PublicKey, ∀ ms : List PublicKey,
      (createThawAccountInstruction account mint authority ms pid).data =
        [TokenInstruction.toByte .ThawAccount] ∧
      (createThawAccountInstruction account mint authority ms pid).data.length = 1) ∧
    (∀ account owner pid : PublicKey, ∀ ms : List PublicKey,
      (createRevokeInstruction account owner ms pid).data =
        [TokenInstruction.toByte .Revoke] ∧
      (createRevokeInstruction account owner ms pid).data.length = 1) :=
  ⟨fun _ _ _ _ _ => ⟨rfl, rfl⟩, fun _ _ _ _ _ => ⟨rfl, rfl⟩,
    fun _ _ _ _ => ⟨rfl, rfl⟩⟩

/-- C10: `createBurnInstruction` builds the same instruction whether the
amount is passed as an exactly-representable JavaScript number or as a
bigint, and its account list starts with the token account (writable,
non-signer) followed by the mint (writable, non-signer). -/
theorem burn_number_bigint_equivalent (account mint owner pid : PublicKey)
    (ms : List PublicKey) (amt : Nat) (h1 : amt < 2 ^ 64) (h2 : amt ≤ 2 ^ 53) :
    createBurnInstruction account mint owner (.num amt) ms pid =
      createBurnInstruction account mint owner (.big amt) ms pid ∧
    (createBurnInstruction account mint owner (.num amt) ms pid).keys.take 2 =
      [⟨account, false, true⟩, ⟨mint, false, true⟩] := by
  refine ⟨rfl, ?_⟩
  cases ms <;> rfl

/-- Witness for C10 at amount 42. -/
theorem burn_number_bigint_equivalent_witness :
    createBurnInstruction 5 6 7 (.num 42) [8, 9] 10 =
      createBurnInstruction 5 6 7 (.big 42) [8, 9] 10 ∧
    (createBurnInstruction 5 6 7 (.num 42) [8, 9] 10).keys.take 2 =
      [⟨5, false, true⟩, ⟨6, false, true⟩] :=
  burn_number_bigint_equivalent 5 6 7 10 [8, 9] 42 (by norm_num) (by norm_num)

/-! ## Error branches never carry a mutated state -/

/-- InitializeMint leaves the ledger untouched on failure. -/
theorem processInitMint_err_state (slot dec : Nat) (ma : Authority)
    (fa : Option Authority) (l : Ledger) (e : TokenError) (l2 : Ledger)
    (h : processInitMint slot dec ma fa l = .err e l2) : l2 = l := by
  unfold processInitMint at h
  repeat' split at h
  all_goals cases h
  all_goals rfl

/-- InitializeAccount leaves the ledger untouched on failure. -/
theorem processInitAccount_err_state (slot ms : Nat) (ow : Authority)
    (l : Ledger) (e : TokenError) (l2 : Ledger)
    (h : processInitAccount slot ms ow l = .err e l2) : l2 = l := by
  unfold processInitAccount at h
  repeat' split at h
  all_goals cases h
  all_goals rfl

/-- InitializeMultisig leaves the ledger untouched on failure. -/
theorem processInitMultisig_err_state (slot m : Nat) (keys : List PublicKey)
    (l : Ledger) (e : TokenError) (l2 : Ledger)
    (h : processInitMultisig slot m keys l = .err e l2) : l2 = l := by
  unfold processInitMultisig at h
  repeat' split at h
  all_goals cases h
  all_goals rfl

/-- Transfer leaves the ledger untouched on failure. -/
theorem processTransfer_err_state (src dst amt : Nat) (auth : Authority)
    (sg : List PublicKey) (l : Ledger) (e : TokenError) (l2 : Ledger)
    (h : processTransfer src dst amt auth sg l = .err e l2) : l2 = l := by
  unfold processTransfer at h
  repeat' split at h
  all_goals cases h
  all_goals rfl

/-- Approve leaves the ledger untouched on failure. -/
theorem processApprove_err_state (slot : Nat) (del : Authority) (amt : Nat)
    (sg : List PublicKey) (l : Ledger) (e : TokenError) (l2 : Ledger)
    (h : processApprove slot del amt sg l = .err e l2) : l2 = l := by
  unfold processApprove at h
  repeat' split at h
  all_goals cases h
  all_goals rfl

/-- Revoke leaves the ledger untouched on failure. -/
theorem processRevoke_err_state (slot : Nat) (sg : List PublicKey)
    (l : Ledger) (e : TokenError) (l2 : Ledger)
    (h : processRevoke slot sg l = .err e l2) : l2 = l := by
  unfold processRevoke at h
  repeat' split at h
  all_goals cases h
  all_goals rfl

/-- SetAuthority leaves the ledger untouched on failure. -/
theorem processSetAuthority_err_state (slot : Nat) (kind : AuthorityKind)
    (na : Option Authority) (sg : List PublicKey) (l : Ledger)
    (e : TokenError) (l2 : Ledger)
    (h : processSetAuthority slot kind na sg l = .err e l2) : l2 = l := by
  unfold processSetAuthority at h
  repeat' split at h
  all_goals cases h
  all_goals rfl

/-- MintTo leaves the ledger untouched on failure. -/
theorem processMintTo_err_state (ms dst amt : Nat) (sg : List PublicKey)
    (l : Ledger) (e : TokenError) (l2 : Ledger)
    (h : processMintTo ms dst amt sg l = .err e l2) : l2 = l := by
  unfold processMintTo at h
  repeat' split at h
  all_goals cases h
  all_goals rfl

/-- Burn leaves the ledger untouched on failure. -/
theorem processBurn_err_state (slot amt : Nat) (auth : Authority)
    (sg : List PublicKey) (l : Ledger) (e : TokenError) (l2 : Ledger)
    (h : processBurn slot amt auth sg l = .err e l2) : l2 = l := by
  unfold processBurn at h
  repeat' split at h
  all_goals cases h
  all_goals rfl

/-- CloseAccount leaves the ledger untouched on failure. -/
theorem processClose_err_state (slot dst : Nat) (sg : List PublicKey)
    (l : Ledger) (e : TokenError) (l2 : Ledger)
    (h : processClose slot dst sg l = .err e l2) : l2 = l := by
  unfold processClose at h
  repeat' split at h
  all_goals cases h
  all_goals rfl

/-- FreezeAccount leaves the ledger untouched on failure. -/
theorem processFreeze_err_state (slot : Nat) (sg : List PublicKey)
    (l : Ledger) (e : TokenError) (l2 : Ledger)
    (h : processFreeze slot sg l = .err e l2) : l2 = l := by
  unfold processFreeze at h
  repeat' split at h
  all_goals cases h
  all_goals rfl

/-- ThawAccount leaves the ledger untouched on failure. -/
theorem processThaw_err_state (slot : Nat) (sg : List PublicKey)
    (l : Ledger) (e : TokenError) (l2 : Ledger)
    (h : processThaw slot sg l = .err e l2) : l2 = l := by
  unfold processThaw at h
  repeat' split at h
  all_goals cases h
  all_goals rfl

/-- No instruction's failure carries a mutated ledger: the state an error
returns is the state the instruction started from. -/
theorem exec_err_state (op : Instr) (l : Ledger) (e : TokenError)
    (l2 : Ledger) (h : exec op l = .err e l2) : l2 = l := by
  cases op with
  | initMint a b c d => exact processInitMint_err_state a b c d l e l2 h
  | initAccount a b c => exact processInitAccount_err_state a b c l e l2 h
  | initMultisig a b c => exact processInitMultisig_err_state a b c l e l2 h
  | transfer a b c d f => exact processTransfer_err_state a b c d f l e l2 h
  | approve a b c d => exact processApprove_err_state a b c d l e l2 h
  | revoke a b => exact processRevoke_err_state a b l e l2 h
  | setAuthority a b c d => exact processSetAuthority_err_state a b c d l e l2 h
  | mintTo a b c d => exact processMintTo_err_state a b c d l e l2 h
  | burn a b c d => exact processBurn_err_state a b c d l e l2 h
  | closeAccount a b c => exact processClose_err_state a b c l e l2 h
  | freezeAccount a b => exact processFreeze_err_state a b l e l2 h
  | thawAccount a b => exact processThaw_err_state a b l e l2 h

/-! ## Success-shape lemmas for Transfer, Approve and Revoke -/

/-- Facts the account checks of Transfer establish on success. -/
theorem transferAccountsChecked_ok (src dst : Nat) (l : Ledger)
    (s d : TokenAccount)
    (h : transferAccountsChecked src dst l = .ok (s, d)) :
    l.accounts[src]? = some s ∧ l.accounts[dst]? = some d ∧
    s.state ≠ AccountState.Uninitialized ∧
    d.state ≠ AccountState.Uninitialized ∧ s.mint = d.mint := by
  unfold transferAccountsChecked at h
  repeat' split at h
  all_goals cases h
  all_goals simp_all

/-- Facts the balance checks of Transfer establish on success. -/
theorem transferAmountChecked_ok (amt : Nat) (s d : TokenAccount)
    (h : transferAmountChecked amt s d = .ok ()) :
    amt ≤ s.amount ∧ d.amount + amt ≤ U64_MAX ∧
    (d.isNative = true → d.nativeReserve + amt ≤ U64_MAX) := by
  unfold transferAmountChecked at h
  repeat' split at h
  all_goals cases h
  refine ⟨by omega, by omega, fun hnat => ?_⟩
  rename_i h1 h2 h3 h4
  rw [not_and_or] at h4
  rcases h4 with h4 | h4
  · exact absurd hnat h4
  · omega

/-- Facts all Transfer checks establish on success. -/
theorem transferChecked_ok (src dst amt : Nat) (auth : Authority)
    (sg : List PublicKey) (l : Ledger) (s d : TokenAccount) (u : Bool)
    (h : transferChecked src dst amt auth sg l = .ok (s, d, u)) :
    l.accounts[src]? = some s ∧ l.accounts[dst]? = some d ∧
    s.state ≠ AccountState.Uninitialized ∧
    d.state ≠ AccountState.Uninitialized ∧ s.mint = d.mint ∧
    amt ≤ s.amount ∧ d.amount + amt ≤ U64_MAX ∧
    (d.isNative = true → d.nativeReserve + amt ≤ U64_MAX) := by
  unfold transferChecked at h
  repeat' split at h
  all_goals cases h
  rename_i hacc hamt hauth
  obtain ⟨h1, h2, h3, h4, h5⟩ := transferAccountsChecked_ok src dst l s d hacc
  obtain ⟨h6, h7, h8⟩ := transferAmountChecked_ok amt s d hamt
  exact ⟨h1, h2, h3, h4, h5, h6, h7, h8⟩

/-- The two possible successful outcomes of Transfer: the self-transfer
no-op, or a debit/credit pair on two distinct validated accounts. -/
theorem processTransfer_ok_cases (src dst amt : Nat) (auth : Authority)
    (sg : List PublicKey) (l l2 : Ledger)
    (h : processTransfer src dst amt auth sg l = .ok l2) :
    (src = dst ∧ l2 = l) ∨
    (src ≠ dst ∧ ∃ s d u,
      l.accounts[src]? = some s ∧ l.accounts[dst]? = some d ∧
      s.state ≠ AccountState.Uninitialized ∧
      d.state ≠ AccountState.Uninitialized ∧ s.mint = d.mint ∧
      amt ≤ s.amount ∧ d.amount + amt ≤ U64_MAX ∧
      (d.isNative = true → d.nativeReserve + amt ≤ U64_MAX) ∧
      l2 = applyTransfer l src dst s d amt u) := by
  unfold processTransfer at h
  split at h
  · cases h
    exact Or.inl ⟨by assumption, rfl⟩
  · rename_i hne
    split at h
    · cases h
    · rename_i s d u hok
      cases h
      obtain ⟨h1, h2, h3, h4, h5, h6, h7, h8⟩ :=
        transferChecked_ok src dst amt auth sg l s d u hok
      exact Or.inr ⟨hne, s, d, u, h1, h2, h3, h4, h5, h6, h7, h8, rfl⟩

/-- The successful outcome of Approve: the validated account with the new
delegate recorded. -/
theorem processApprove_ok_cases (slot : Nat) (del : Authority) (amt : Nat)
    (sg : List PublicKey) (l l2 : Ledger)
    (h : processApprove slot del amt sg l = .ok l2) :
    ∃ a, l.accounts[slot]? = some a ∧
      l2 = { l with accounts := l.accounts.set slot { a with delegate := some del, delegatedAmount := amt } } := by
  unfold processApprove at h
  repeat' split at h
  all_goals cases h
  rename_i a hsome h1 h2
  exact ⟨a, hsome, rfl⟩

/-- The successful outcome of Revoke: the validated account with the
delegate cleared. -/
theorem processRevoke_ok_cases (slot : Nat) (sg : List PublicKey)
    (l l2 : Ledger) (h : processRevoke slot sg l = .ok l2) :
    ∃ a, l.accounts[slot]? = some a ∧
      l2 = { l with accounts := l.accounts.set slot { a with delegate := none, delegatedAmount := 0 } } := by
  unfold processRevoke at h
  repeat' split at h
  all_goals cases h
  rename_i a hsome h1 h2
  exact ⟨a, hsome, rfl⟩

/-! ## Supply conservation -/

/-- The contribution of one account record to the balance total of Mint
`i`: its amount when it is an account of that Mint. -/
def contribution (i : Nat) (a : TokenAccount) : Nat :=
  if a.mint = i ∧ a.state ≠ .Uninitialized then a.amount else 0

/-- The sum of the balances of all Token Accounts of Mint `i`. -/
def mintSum (l : Ledger) (i : Nat) : Nat :=
  (l.accounts.map (contribution i)).sum

/-- The supply invariant: every Mint's recorded supply equals the sum of
the balances of its Token Accounts. -/
def supplyInv (l : Ledger) : Prop :=
  ∀ i (h : i < l.mints.length), (l.mints.get ⟨i, h⟩).supply = mintSum l i

/-- Replacing one list entry changes a mapped sum by exactly the
difference between the new and old images. -/
theorem sum_map_set {α : Type} (f : α → Nat) :
    ∀ (xs : List α) (j : Nat) (v a : α), xs[j]? = some a →
      ((xs.set j v).map f).sum + f a = (xs.map f).sum + f v := by
  intro xs
  induction xs with
  | nil => intro j v a h; cases h
  | cons x t ih =>
    intro j v a h
    cases j with
    | zero =>
      simp only [List.getElem?_cons_zero, Option.some.injEq] at h
      subst h
      simp only [List.set_cons_zero, List.map_cons, List.sum_cons]
      omega
    | succ j =>
      have ht : t[j]? = some a := by simpa using h
      have ihj := ih j v a ht
      simp only [List.set_cons_succ, List.map_cons, List.sum_cons]
      omega

/-- Debiting does not change the account's Mint. -/
theorem debitAccount_mint (a : TokenAccount) (amt : Nat) (u : Bool) :
    (debitAccount a amt u).mint = a.mint := by
  unfold debitAccount; cases u <;> simp

/-- Debiting does not change the account's state. -/
theorem debitAccount_state (a : TokenAccount) (amt : Nat) (u : Bool) :
    (debitAccount a amt u).state = a.state := by
  unfold debitAccount; cases u <;> simp

/-- Debiting subtracts exactly the amount. -/
theorem debitAccount_amount (a : TokenAccount) (amt : Nat) (u : Bool) :
    (debitAccount a amt u).amount = a.amount - amt := by
  unfold debitAccount; cases u <;> simp

/-- A debited account's contribution to a Mint total. -/
theorem contribution_debit (i : Nat) (a : TokenAccount) (amt : Nat) (u : Bool) :
    contribution i (debitAccount a amt u) =
      if a.mint = i ∧ a.state ≠ .Uninitialized then a.amount - amt else 0 := by
  unfold contribution
  rw [debitAccount_mint, debitAccount_state, debitAccount_amount]

/-- A credited account's contribution to a Mint total. -/
theorem contribution_credit (i : Nat) (d : TokenAccount) (amt : Nat) :
    contribution i (creditAccount d amt) =
      if d.mint = i ∧ d.state ≠ .Uninitialized then d.amount + amt else 0 := by
  unfold contribution creditAccount
  simp

/-- A successful Transfer between distinct slots of the same Mint keeps
every Mint's balance total unchanged. -/
theorem mintSum_applyTransfer (l : Ledger) (src dst : Nat)
    (s d : TokenAccount) (amt : Nat) (u : Bool)
    (hsrc : l.accounts[src]? = some s) (hdst : l.accounts[dst]? = some d)
    (hne : src ≠ dst) (hmint : s.mint = d.mint)
    (hs : s.state ≠ AccountState.Uninitialized)
    (hd : d.state ≠ AccountState.Uninitialized)
    (hamt : amt ≤ s.amount) (i : Nat) :
    mintSum (applyTransfer l src dst s d amt u) i = mintSum l i := by
  have h1 := sum_map_set (contribution i) l.accounts src (debitAccount s amt u) s hsrc
  have hdst2 : (l.accounts.set src (debitAccount s amt u))[dst]? = some d := by
    rw [List.getElem?_set_ne hne]; exact hdst
  have h2 := sum_map_set (contribution i) (l.accounts.set src (debitAccount s amt u))
    dst (creditAccount d amt) d hdst2
  have hcd : contribution i (debitAccount s amt u) + contribution i (creditAccount d amt)
      = contribution i s + contribution i d := by
    rw [contribution_debit, contribution_credit]
    unfold contribution
    rw [hmint]
    by_cases hmi : d.mint = i
    · simp only [hmi, hs, hd, ne_eq, not_false_iff, and_true, if_pos]
      omega
    · simp [hmi]
  unfold mintSum applyTransfer
  dsimp only
  omega

/-- Replacing an account record by one with the same Mint, state and
balance keeps every Mint's balance total and the supply invariant. -/
theorem supplyInv_set_same (l : Ledger) (slot : Nat) (a a2 : TokenAccount)
    (hsome : l.accounts[slot]? = some a) (hmint : a2.mint = a.mint)
    (hstate : a2.state = a.state) (hamount : a2.amount = a.amount)
    (hinv : supplyInv l) :
    supplyInv { l with accounts := l.accounts.set slot a2 } := by
  intro i hi
  have h1 := sum_map_set (contribution i) l.accounts slot a2 a hsome
  have hc : contribution i a2 = contribution i a := by
    unfold contribution
    rw [hmint, hstate, hamount]
  have hsum : mintSum { l with accounts := l.accounts.set slot a2 } i = mintSum l i := by
    unfold mintSum
    dsimp only
    omega
  rw [hsum]
  exact hinv i hi

/-- Whether an instruction is a Transfer, Approve or Revoke. -/
def isTAR : Instr → Bool
  | .transfer _ _ _ _ _ => true
  | .approve _ _ _ _ => true
  | .revoke _ _ => true
  | _ => false

/-- One Transfer, Approve or Revoke step (successful or failed) preserves
the supply invariant. -/
theorem supplyInv_step (op : Instr) (l : Ledger) (hop : isTAR op = true)
    (hinv : supplyInv l) : supplyInv (stepLedger op l) := by
  unfold stepLedger
  cases hr : exec op l with
  | err e l2 =>
    rw [exec_err_state op l e l2 hr]
    exact hinv
  | ok l2 =>
    cases op with
    | transfer src dst amt auth sg =>
      rcases processTransfer_ok_cases src dst amt auth sg l l2 hr with
        ⟨_, rfl⟩ | ⟨hne, s, d, u, h1, h2, h3, h4, h5, h6, h7, h8, rfl⟩
      · exact hinv
      · intro i hi
        rw [mintSum_applyTransfer l src dst s d amt u h1 h2 hne h5 h3 h4 h6 i]
        exact hinv i hi
    | approve slot del amt sg =>
      obtain ⟨a, hsome, rfl⟩ := processApprove_ok_cases slot del amt sg l l2 hr
      exact supplyInv_set_same l slot a _ hsome rfl rfl rfl hinv
    | revoke slot sg =>
      obtain ⟨a, hsome, rfl⟩ := processRevoke_ok_cases slot sg l l2 hr
      exact supplyInv_set_same l slot a _ hsome rfl rfl rfl hinv
    | initMint a b c d => simp [isTAR] at hop
    | initAccount a b c => simp [isTAR] at hop
    | initMultisig a b c => simp [isTAR] at hop
    | setAuthority a b c d => simp [isTAR] at hop
    | mintTo a b c d => simp [isTAR] at hop
    | burn a b c d => simp [isTAR] at hop
    | closeAccount a b c => simp [isTAR] at hop
    | freezeAccount a b => simp [isTAR] at hop
    | thawAccount a b => simp [isTAR] at hop

/-- The supply invariant is decidable, so it can be checked on concrete
ledgers. -/
instance decSupplyInv (l : Ledger) : Decidable (supplyInv l) := by
  unfold supplyInv
  exact Nat.decidableBallLT _ _

/-- A small concrete ledger: one Mint of supply 30 held by two accounts. -/
def demoMint : Mint :=
  { mintAuthority := some (.direct 1), supply := 30, decimals := 2,
    isInitialized := true, freezeAuthority := some (.direct 1) }

/-- First demo account: balance 10, owned by key 2. -/
def demoAccountA : TokenAccount :=
  { mint := 0, owner := .direct 2, amount := 10, delegate := none,
    delegatedAmount := 0, state := .Initialized, isNative := false,
    nativeReserve := 0, closeAuthority := none }

/-- Second demo account: balance 20, owned by key 3. -/
def demoAccountB : TokenAccount :=
  { mint := 0, owner := .direct 3, amount := 20, delegate := none,
    delegatedAmount := 0, state := .Initialized, isNative := false,
    nativeReserve := 0, closeAuthority := none }

/-- The demo ledger. -/
def demoLedger : Ledger :=
  { mints := [demoMint], accounts := [demoAccountA, demoAccountB],
    multisigs := [] }

/-- A demo instruction sequence of Transfers, an Approve, a failing
Transfer and a Revoke. -/
def demoOps : List Instr :=
  [.transfer 0 1 5 (.direct 2) [2], .approve 0 (.direct 4) 7 [2],
   .transfer 0 1 999 (.direct 2) [2], .revoke 0 [2],
   .transfer 1 1 123456 (.direct 9) []]

/-! ## Claims about the ledger state machine -/

/-- C1: for every sequence of Transfer, Approve and Revoke operations
applied to a ledger satisfying the supply invariant, every Mint's supply
still equals the sum of the balances of its Token Accounts afterwards:
none of the three operations changes that sum. -/
theorem supply_conservation (ops : List Instr) (l : Ledger)
    (hops : ∀ op ∈ ops, isTAR op = true) (hinv : supplyInv l) :
    supplyInv (applyOps ops l) := by
  induction ops generalizing l with
  | nil => exact hinv
  | cons op t ih =>
    have h1 := supplyInv_step op l (hops op (List.mem_cons_self op t)) hinv
    exact ih (stepLedger op l) (fun o ho => hops o (List.mem_cons_of_mem op ho)) h1

/-- Witness for C1 on the demo ledger and operation sequence. -/
theorem supply_conservation_witness :
    (∀ op ∈ demoOps, isTAR op = true) ∧ supplyInv demoLedger ∧
    supplyInv (applyOps demoOps demoLedger) :=
  ⟨by decide, by decide, supply_conservation demoOps demoLedger (by decide) (by decide)⟩

/-- C2: a Transfer whose source slot equals its destination slot succeeds
for every amount (even above the balance) and every signer set, and leaves
the ledger - in particular that account's amount - unchanged; no
signer/authority check is performed. -/
theorem self_transfer_noop (x amt : Nat) (auth : Authority)
    (sg : List PublicKey) (l : Ledger) :
    exec (.transfer x x amt auth sg) l = .ok l := by
  simp [exec, processTransfer]

/-- C4: if an instruction returns an error, the resulting ledger state is
identical to the state before the instruction: no partial mutation
survives a failed precondition. -/
theorem instruction_atomicity (op : Instr) (l : Ledger) (e : TokenError)
    (l2 : Ledger) (h : exec op l = .err e l2) : l2 = l :=
  exec_err_state op l e l2 h

/-- Witness for C4: a Transfer failing its authority check returns the
starting ledger. -/
theorem instruction_atomicity_witness :
    exec (.transfer 0 1 5 (.direct 9) []) demoLedger =
      .err .MissingRequiredSignature demoLedger ∧ demoLedger = demoLedger :=
  ⟨by decide,
    instruction_atomicity (.transfer 0 1 5 (.direct 9) []) demoLedger
      .MissingRequiredSignature demoLedger (by decide)⟩

/-- C3: for an initialized Multisig record, the Authority Resolver answers
Authorized exactly when at least `m` of its configured signers are present
in the signer set (membership only, so the signer set's order is
irrelevant and each configured signer is counted once), and answers
MissingRequiredSignature otherwise; being a pure function of the ledger
and signer set, the check mutates no state. -/
theorem multisig_threshold (l : Ledger) (i : Nat) (ms : Multisig)
    (sg : List PublicKey) (hms : l.multisigs[i]? = some ms)
    (hinit : ms.isInitialized = true) :
    (checkAuthority l (.multisig i) sg = .ok () ↔
      ms.m ≤ (ms.signers.filter (fun k => sg.contains k)).length) ∧
    (¬ ms.m ≤ (ms.signers.filter (fun k => sg.contains k)).length →
      checkAuthority l (.multisig i) sg = .error .MissingRequiredSignature) := by
  have hauth : authorized l (.multisig i) sg =
      decide (ms.m ≤ (ms.signers.filter (fun k => sg.contains k)).length) := by
    simp [authorized, multisigSatisfied, hms, hinit]
  unfold checkAuthority
  rw [hauth]
  by_cases hle : ms.m ≤ (ms.signers.filter (fun k => sg.contains k)).length
  · simp [hle]
  · simp [hle]

/-- A 2-of-3 multisig over the keys 1, 2, 3. -/
def demoMultisig : Multisig :=
  { m := 2, n := 3, signers := [1, 2, 3], isInitialized := true }

/-- A ledger holding only the demo multisig. -/
def demoMsLedger : Ledger :=
  { mints := [], accounts := [], multisigs := [demoMultisig] }

/-- Witness for C3: with only signer 1 present, 2-of-3 is not satisfied. -/
theorem multisig_threshold_witness :
    (checkAuthority demoMsLedger (.multisig 0) [1] = .ok () ↔
      demoMultisig.m ≤ (demoMultisig.signers.filter (fun k => [1].contains k)).length) ∧
    (¬ demoMultisig.m ≤ (demoMultisig.signers.filter (fun k => [1].contains k)).length →
      checkAuthority demoMsLedger (.multisig 0) [1] = .error .MissingRequiredSignature) :=
  multisig_threshold demoMsLedger 0 demoMultisig [1] (by decide) (by decide)

/-! ## Burn and the native-wrap Mint -/

/-- Burn on a native account fails on every path, leaving the ledger
untouched. -/
theorem processBurn_native_err (slot amt : Nat) (auth : Authority)
    (sg : List PublicKey) (l : Ledger) (a : TokenAccount)
    (hsome : l.accounts[slot]? = some a) (hn : a.isNative = true) :
    ∃ e, processBurn slot amt auth sg l = .err e l := by
  unfold processBurn
  simp only [hsome]
  by_cases h1 : a.state = AccountState.Uninitialized
  · exact ⟨.AccountNotInitialized, by simp [h1]⟩
  · by_cases h2 : a.state = AccountState.Frozen
    · exact ⟨.AccountFrozen, by simp [h1, h2]⟩
    · exact ⟨.InvalidAccountData, by simp [h1, h2, hn]⟩

/-- A successful Burn only happens on a non-native account. -/
theorem processBurn_ok_not_native (slot amt : Nat) (auth : Authority)
    (sg : List PublicKey) (l l2 : Ledger)
    (h : processBurn slot amt auth sg l = .ok l2) :
    ∀ a, l.accounts[slot]? = some a → a.isNative = false := by
  unfold processBurn at h
  repeat' split at h
  all_goals cases h
  all_goals intro a2 ha2
  all_goals simp_all

/-- C6: Burn fails and changes no state on every Token Account bound to
the native-wrapped mint, for every requested amount; a successful Burn
only happens on a non-native account. -/
theorem burn_native_rejected :
    (∀ slot amt : Nat, ∀ auth : Authority, ∀ sg : List PublicKey,
      ∀ l : Ledger, ∀ a : TokenAccount, l.accounts[slot]? = some a →
      a.isNative = true → ∃ e, exec (.burn slot amt auth sg) l = .err e l) ∧
    (∀ slot amt : Nat, ∀ auth : Authority, ∀ sg : List PublicKey,
      ∀ l l2 : Ledger, ∀ a : TokenAccount,
      exec (.burn slot amt auth sg) l = .ok l2 →
      l.accounts[slot]? = some a → a.isNative = false) :=
  ⟨fun slot amt auth sg l a hsome hn =>
    processBurn_native_err slot amt auth sg l a hsome hn,
   fun slot amt auth sg l l2 a h hsome =>
    processBurn_ok_not_native slot amt auth sg l l2 h a hsome⟩

/-! ## Multisig bounds and immutability -/

/-- The well-formedness of an initialized Multisig record:
`1 ≤ m ≤ n ≤ 11` and exactly `n` stored signer keys. -/
def multisigWF (ms : Multisig) : Prop :=
  ms.isInitialized = true →
    1 ≤ ms.m ∧ ms.m ≤ ms.n ∧ ms.n ≤ 11 ∧ ms.signers.length = ms.n

set_option maxHeartbeats 1000000 in
/-- The only successful instruction that touches the multisig store is
InitializeMultisig, and it writes one bounds-checked record over an
uninitialized slot. -/
theorem exec_ok_multisigs (op : Instr) (l l2 : Ledger)
    (h : exec op l = .ok l2) :
    l2.multisigs = l.multisigs ∨
    ∃ slot m keys ms, op = Instr.initMultisig slot m keys ∧
      l.multisigs[slot]? = some ms ∧ ms.isInitialized = false ∧
      1 ≤ m ∧ m ≤ keys.length ∧ keys.length ≤ 11 ∧
      l2.multisigs = l.multisigs.set slot
        { m := m, n := keys.length, signers := keys, isInitialized := true } := by
  cases op with
  | initMultisig slot m keys =>
    replace h : processInitMultisig slot m keys l = TxResult.ok l2 := h
    unfold processInitMultisig at h
    repeat' split at h
    all_goals cases h
    rename_i hnn hopt msr hsome hinit
    rw [not_not] at hnn
    right
    exact ⟨slot, m, keys, msr, rfl, hsome, by simpa using hinit, hnn.1, hnn.2.1,
      hnn.2.2, rfl⟩
  | initMint a b c d =>
    replace h : processInitMint a b c d l = TxResult.ok l2 := h
    unfold processInitMint at h
    repeat' split at h
    all_goals cases h
    all_goals exact Or.inl rfl
  | initAccount a b c =>
    replace h : processInitAccount a b c l = TxResult.ok l2 := h
    unfold processInitAccount at h
    repeat' split at h
    all_goals cases h
    all_goals exact Or.inl rfl
  | transfer src dst amt auth sg =>
    rcases processTransfer_ok_cases src dst amt auth sg l l2 h with
      ⟨_, rfl⟩ | ⟨_, s, d, u, _, _, _, _, _, _, _, _, rfl⟩
    · exact Or.inl rfl
    · exact Or.inl rfl
  | approve a b c d =>
    replace h : processApprove a b c d l = TxResult.ok l2 := h
    unfold processApprove at h
    repeat' split at h
    all_goals cases h
    all_goals exact Or.inl rfl
  | revoke a b =>
    replace h : processRevoke a b l = TxResult.ok l2 := h
    unfold processRevoke at h
    repeat' split at h
    all_goals cases h
    all_goals exact Or.inl rfl
  | setAuthority a b c d =>
    replace h : processSetAuthority a b c d l = TxResult.ok l2 := h
    unfold processSetAuthority at h
    repeat' split at h
    all_goals cases h
    all_goals exact Or.inl rfl
  | mintTo a b c d =>
    replace h : processMintTo a b c d l = TxResult.ok l2 := h
    unfold processMintTo at h
    repeat' split at h
    all_goals cases h
    all_goals exact Or.inl rfl
  | burn a b c d =>
    replace h : processBurn a b c d l = TxResult.ok l2 := h
    unfold processBurn at h
    repeat' split at h
    all_goals cases h
    all_goals exact Or.inl rfl
  | closeAccount a b c =>
    replace h : processClose a b c l = TxResult.ok l2 := h
    unfold processClose at h
    repeat' split at h
    all_goals cases h
    all_goals exact Or.inl rfl
  | freezeAccount a b =>
    replace h : processFreeze a b l = TxResult.ok l2 := h
    unfold processFreeze at h
    repeat' split at h
    all_goals cases h
    all_goals exact Or.inl rfl
  | thawAccount a b =>
    replace h : processThaw a b l = TxResult.ok l2 := h
    unfold processThaw at h
    repeat' split at h
    all_goals cases h
    all_goals exact Or.inl rfl

/-- C9: InitializeMultisig fails whenever the requested bounds
`1 ≤ m ≤ n ≤ 11` are violated; every initialized Multisig record satisfies
those bounds with its signer list fixed at length `n ≤ 11`; and no
successful instruction changes an initialized Multisig record's `m`, `n`
or signer list. -/
theorem multisig_bounds :
    (∀ slot m : Nat, ∀ keys : List PublicKey, ∀ l : Ledger,
      ¬ (1 ≤ m ∧ m ≤ keys.length ∧ keys.length ≤ 11) →
      exec (.initMultisig slot m keys) l = .err .InvalidInstructionData l) ∧
    (∀ op : Instr, ∀ l l2 : Ledger, (∀ ms ∈ l.multisigs, multisigWF ms) →
      exec op l = .ok l2 → ∀ ms ∈ l2.multisigs, multisigWF ms) ∧
    (∀ op : Instr, ∀ l l2 : Ledger, ∀ j : Nat, ∀ ms : Multisig,
      exec op l = .ok l2 → l.multisigs[j]? = some ms →
      ms.isInitialized = true → l2.multisigs[j]? = some ms) := by
  refine ⟨?_, ?_, ?_⟩
  · intro slot m keys l hneg
    show processInitMultisig slot m keys l = .err .InvalidInstructionData l
    unfold processInitMultisig
    rw [if_pos hneg]
  · intro op l l2 hwf h ms hms
    rcases exec_ok_multisigs op l l2 h with heq | ⟨slot, m, keys, old, _, _, _, h1, h2, h3, heq⟩
    · rw [heq] at hms
      exact hwf ms hms
    · rw [heq] at hms
      rcases List.mem_or_eq_of_mem_set hms with hin | rfl
      · exact hwf ms hin
      · exact fun _ => ⟨h1, h2, h3, rfl⟩
  · intro op l l2 j ms h hj hinit
    rcases exec_ok_multisigs op l l2 h with heq | ⟨slot, m, keys, old, _, hold, holdinit, _, _, _, heq⟩
    · rw [heq]
      exact hj
    · rw [heq]
      have hne : slot ≠ j := by
        intro hsj
        rw [hsj, hj] at hold
        cases hold
        rw [hinit] at holdinit
        cases holdinit
      rw [List.getElem?_set_ne hne]
      exact hj

/-! ## Unsigned 64-bit range preservation -/

/-- All numeric fields of an account are within the u64 range. -/
def accountInRange (a : TokenAccount) : Prop :=
  a.amount ≤ U64_MAX ∧ a.delegatedAmount ≤ U64_MAX ∧ a.nativeReserve ≤ U64_MAX

/-- All balances and supplies of the ledger are within the u64 range. -/
def ledgerInRange (l : Ledger) : Prop :=
  (∀ mt ∈ l.mints, mt.supply ≤ U64_MAX) ∧ (∀ a ∈ l.accounts, accountInRange a)

/-- The u64 amount argument an instruction carries (0 when it has none). -/
def instrAmount : Instr → Nat
  | .transfer _ _ amt _ _ => amt
  | .approve _ _ amt _ => amt
  | .mintTo _ _ amt _ => amt
  | .burn _ amt _ _ => amt
  | _ => 0

/-- Setting one in-range mint record keeps the mint store in range. -/
theorem mints_range_set (xs : List Mint) (hxs : ∀ mt ∈ xs, mt.supply ≤ U64_MAX)
    (j : Nat) (mt2 : Mint) (h2 : mt2.supply ≤ U64_MAX) :
    ∀ mt ∈ xs.set j mt2, mt.supply ≤ U64_MAX := by
  intro mt hmt
  rcases List.mem_or_eq_of_mem_set hmt with hin | rfl
  · exact hxs mt hin
  · exact h2

/-- Setting one in-range account record keeps the account store in range. -/
theorem accounts_range_set (xs : List TokenAccount)
    (hxs : ∀ a ∈ xs, accountInRange a) (j : Nat) (a2 : TokenAccount)
    (h2 : accountInRange a2) : ∀ a ∈ xs.set j a2, accountInRange a := by
  intro a ha
  rcases List.mem_or_eq_of_mem_set ha with hin | rfl
  · exact hxs a hin
  · exact h2

/-- Debiting an in-range account keeps it in range. -/
theorem debitAccount_inRange (a : TokenAccount) (amt : Nat) (u : Bool)
    (h : accountInRange a) : accountInRange (debitAccount a amt u) := by
  obtain ⟨h1, h2, h3⟩ := h
  unfold debitAccount accountInRange
  cases u <;> simp <;> split <;> omega

/-- Crediting an account keeps it in range when both the balance and (for
a native account) the native balance additions stay within the range. -/
theorem creditAccount_inRange (d : TokenAccount) (amt : Nat)
    (h : accountInRange d) (h1 : d.amount + amt ≤ U64_MAX)
    (h2 : d.isNative = true → d.nativeReserve + amt ≤ U64_MAX) :
    accountInRange (creditAccount d amt) := by
  obtain ⟨g1, g2, g3⟩ := h
  unfold creditAccount accountInRange
  simp only
  refine ⟨h1, g2, ?_⟩
  by_cases hn : d.isNative = true
  · simp [hn]
    exact h2 hn
  · simp [hn] at *
    omega

set_option maxHeartbeats 1000000 in
/-- Every successful instruction keeps all balances, delegated amounts,
native balances and supplies within the unsigned 64-bit range, given
in-range starting state and instruction amount. -/
theorem execPreservesRange (op : Instr) (l l2 : Ledger)
    (hl : ledgerInRange l) (hamt : instrAmount op ≤ U64_MAX)
    (h : exec op l = .ok l2) : ledgerInRange l2 := by
  obtain ⟨hm, hacc⟩ := hl
  cases op with
  | initMint slot dec ma fa =>
    replace h : processInitMint slot dec ma fa l = TxResult.ok l2 := h
    unfold processInitMint at h
    repeat' split at h
    all_goals cases h
    exact ⟨mints_range_set l.mints hm slot _ (Nat.zero_le _), hacc⟩
  | initAccount slot ms ow =>
    replace h : processInitAccount slot ms ow l = TxResult.ok l2 := h
    unfold processInitAccount at h
    repeat' split at h
    all_goals cases h
    rename_i accR mtR hsomeA hsomeM hstate hinit
    have hAr := hacc accR (List.getElem?_mem hsomeA)
    refine ⟨hm, accounts_range_set _ hacc slot _ ?_⟩
    unfold accountInRange
    dsimp only
    refine ⟨?_, Nat.zero_le _, hAr.2.2⟩
    split
    · exact hAr.2.2
    · exact Nat.zero_le _
  | transfer src dst amt auth sg =>
    rcases processTransfer_ok_cases src dst amt auth sg l l2 h with
      ⟨_, rfl⟩ | ⟨hne, s, d, u, h1, h2, h3, h4, h5, h6, h7, h8, rfl⟩
    · exact ⟨hm, hacc⟩
    · have hs := hacc s (List.getElem?_mem h1)
      have hd := hacc d (List.getElem?_mem h2)
      refine ⟨hm, ?_⟩
      unfold applyTransfer
      dsimp only
      exact accounts_range_set _
        (accounts_range_set _ hacc src _ (debitAccount_inRange s amt u hs)) dst _
        (creditAccount_inRange d amt hd h7 h8)
  | initMultisig slot m keys =>
    replace h : processInitMultisig slot m keys l = TxResult.ok l2 := h
    unfold processInitMultisig at h
    repeat' split at h
    all_goals cases h
    exact ⟨hm, hacc⟩
  | approve slot del amt sg =>
    obtain ⟨a, hsome, rfl⟩ := processApprove_ok_cases slot del amt sg l l2 h
    have hAr := hacc a (List.getElem?_mem hsome)
    exact ⟨hm, accounts_range_set _ hacc slot _ ⟨hAr.1, hamt, hAr.2.2⟩⟩
  | revoke slot sg =>
    obtain ⟨a, hsome, rfl⟩ := processRevoke_ok_cases slot sg l l2 h
    have hAr := hacc a (List.getElem?_mem hsome)
    exact ⟨hm, accounts_range_set _ hacc slot _ ⟨hAr.1, Nat.zero_le _, hAr.2.2⟩⟩
  | setAuthority slot kind na sg =>
    cases kind with
    | mintTokens =>
      replace h : processSetAuthority slot AuthorityKind.mintTokens na sg l = TxResult.ok l2 := h
      simp only [processSetAuthority] at h
      repeat' split at h
      all_goals cases h
      rename_i mtR hsomeM hinitR hoptA kR hkeq hauthR
      exact ⟨mints_range_set l.mints hm slot _ (hm mtR (List.getElem?_mem hsomeM)), hacc⟩
    | freezer =>
      replace h : processSetAuthority slot AuthorityKind.freezer na sg l = TxResult.ok l2 := h
      simp only [processSetAuthority] at h
      repeat' split at h
      all_goals cases h
      rename_i mtR hsomeM hinitR hoptA kR hkeq hauthR
      exact ⟨mints_range_set l.mints hm slot _ (hm mtR (List.getElem?_mem hsomeM)), hacc⟩
    | accountOwner =>
      replace h : processSetAuthority slot AuthorityKind.accountOwner na sg l = TxResult.ok l2 := h
      simp only [processSetAuthority] at h
      repeat' split at h
      all_goals cases h
      rename_i aR hsomeA hstateR hauthR hoptN kR
      exact ⟨hm, accounts_range_set _ hacc slot _ (hacc aR (List.getElem?_mem hsomeA))⟩
    | closer =>
      replace h : processSetAuthority slot AuthorityKind.closer na sg l = TxResult.ok l2 := h
      simp only [processSetAuthority] at h
      repeat' split at h
      all_goals cases h
      rename_i aR hsomeA hstateR hauthR
      exact ⟨hm, accounts_range_set _ hacc slot _ (hacc aR (List.getElem?_mem hsomeA))⟩
  | mintTo ms dst amt sg =>
    replace h : processMintTo ms dst amt sg l = TxResult.ok l2 := h
    unfold processMintTo at h
    repeat' split at h
    all_goals cases h
    rename_i mtR dR hsomeM hsomeD h1 h2 h3 h4 h5 h6 h7 hoptA kR hkeq h8
    refine ⟨mints_range_set l.mints hm ms _ ?_, accounts_range_set _ hacc dst _
      (creditAccount_inRange dR amt (hacc dR (List.getElem?_mem hsomeD)) (by omega) ?_)⟩
    · show mtR.supply + amt ≤ U64_MAX
      omega
    · intro hn
      rcases not_and_or.mp h7 with hx | hx
      · exact absurd hn hx
      · omega
  | burn slot amt auth sg =>
    replace h : processBurn slot amt auth sg l = TxResult.ok l2 := h
    unfold processBurn at h
    repeat' split at h
    all_goals cases h
    all_goals
      exact ⟨mints_range_set l.mints hm _ _
          (le_trans (Nat.sub_le _ _) (hm _ (List.getElem?_mem (by assumption)))),
        accounts_range_set _ hacc _ _
          (debitAccount_inRange _ _ _ (hacc _ (List.getElem?_mem (by assumption))))⟩
  | closeAccount slot dst sg =>
    replace h : processClose slot dst sg l = TxResult.ok l2 := h
    unfold processClose at h
    repeat' split at h
    all_goals cases h
    rename_i aR dR hsomeA hsomeD hun hfr hz hauthC hov
    have hdR := hacc dR (List.getElem?_mem hsomeD)
    have hd2 : accountInRange { dR with nativeReserve := dR.nativeReserve + aR.nativeReserve } :=
      ⟨hdR.1, hdR.2.1, by dsimp only; omega⟩
    have hempty : accountInRange emptyTokenAccount :=
      ⟨Nat.zero_le _, Nat.zero_le _, Nat.zero_le _⟩
    exact ⟨hm, accounts_range_set _ (accounts_range_set _ hacc dst _ hd2) slot _ hempty⟩
  | freezeAccount slot sg =>
    replace h : processFreeze slot sg l = TxResult.ok l2 := h
    unfold processFreeze at h
    repeat' split at h
    all_goals cases h
    rename_i aR hsomeA hun hoptM mtR hsomeM hoptF kR hkeq hauthF
    have haR : accountInRange { aR with state := AccountState.Frozen } :=
      hacc aR (List.getElem?_mem hsomeA)
    exact ⟨hm, accounts_range_set _ hacc slot _ haR⟩
  | thawAccount slot sg =>
    replace h : processThaw slot sg l = TxResult.ok l2 := h
    unfold processThaw at h
    repeat' split at h
    all_goals cases h
    rename_i aR hsomeA hun hoptM mtR hsomeM hoptF kR hkeq hauthF
    have haR : accountInRange { aR with state := AccountState.Initialized } :=
      hacc aR (List.getElem?_mem hsomeA)
    exact ⟨hm, accounts_range_set _ hacc slot _ haR⟩

/-- A Transfer whose destination balance would exceed the u64 ceiling
fails with NumericOverflow, all earlier checks passing. -/
theorem transferOverflowFails (src dst amt : Nat) (auth : Authority)
    (sg : List PublicKey) (l : Ledger) (s d : TokenAccount) (hne : src ≠ dst)
    (hsrc : l.accounts[src]? = some s) (hdst : l.accounts[dst]? = some d)
    (hss : s.state = AccountState.Initialized)
    (hds : d.state = AccountState.Initialized) (hmint : s.mint = d.mint)
    (hbal : ¬ s.amount < amt)
    (hnat : ¬ (s.isNative = true ∧ s.nativeReserve < amt))
    (hover : U64_MAX < d.amount + amt) :
    exec (.transfer src dst amt auth sg) l = .err .NumericOverflow l := by
  show processTransfer src dst amt auth sg l = .err .NumericOverflow l
  unfold processTransfer transferChecked transferAccountsChecked transferAmountChecked
  rw [if_neg hne]
  simp [hsrc, hdst, hss, hds, hmint, hbal, hnat, hover]

/-- A MintTo whose supply increment would exceed the u64 ceiling fails
with NumericOverflow, all earlier checks passing. -/
theorem mintToOverflowFails (ms dst amt : Nat) (sg : List PublicKey)
    (l : Ledger) (mt : Mint) (d : TokenAccount)
    (hsomeM : l.mints[ms]? = some mt) (hsomeD : l.accounts[dst]? = some d)
    (hinit : mt.isInitialized = true)
    (hds : d.state = AccountState.Initialized) (hdm : d.mint = ms)
    (hover : U64_MAX < mt.supply + amt) :
    exec (.mintTo ms dst amt sg) l = .err .NumericOverflow l := by
  show processMintTo ms dst amt sg l = .err .NumericOverflow l
  unfold processMintTo
  simp [hsomeM, hsomeD, hinit, hds, hdm, hover]

/-- A Burn whose supply decrement would underflow fails with
NumericOverflow, all earlier checks passing. -/
theorem burnSupplyUnderflowFails (slot amt : Nat) (auth : Authority)
    (sg : List PublicKey) (l : Ledger) (a : TokenAccount) (mt : Mint)
    (hsomeA : l.accounts[slot]? = some a)
    (has : a.state = AccountState.Initialized) (hnat : a.isNative = false)
    (hbal : ¬ a.amount < amt) (hsomeM : l.mints[a.mint]? = some mt)
    (hsup : mt.supply < amt) :
    exec (.burn slot amt auth sg) l = .err .NumericOverflow l := by
  show processBurn slot amt auth sg l = .err .NumericOverflow l
  unfold processBurn
  simp [hsomeA, has, hnat, hbal, hsomeM, hsup]

/-- A MintTo pushing the demo mint's supply past 2^64 - 1 fails with
NumericOverflow and leaves the ledger untouched. -/
theorem mintTo_overflow_demo :
    exec (.mintTo 0 0 (2 ^ 64) [1]) demoLedger =
      .err .NumericOverflow demoLedger := by decide

/-- C5: balance and supply arithmetic is unsigned 64-bit and checked:
every successful instruction keeps all balances, delegated amounts, native
balances and supplies within [0, 2^64), and an addition that would exceed
2^64 - 1 (destination balance in Transfer, supply in MintTo) or a supply
subtraction that would underflow (Burn) fails with NumericOverflow instead
of wrapping. -/
theorem checked_arithmetic :
    (∀ op : Instr, ∀ l l2 : Ledger, ledgerInRange l →
      instrAmount op ≤ U64_MAX → exec op l = .ok l2 → ledgerInRange l2) ∧
    (∀ src dst amt : Nat, ∀ auth : Authority, ∀ sg : List PublicKey,
      ∀ l : Ledger, ∀ s d : TokenAccount, src ≠ dst →
      l.accounts[src]? = some s → l.accounts[dst]? = some d →
      s.state = AccountState.Initialized → d.state = AccountState.Initialized →
      s.mint = d.mint → ¬ s.amount < amt →
      ¬ (s.isNative = true ∧ s.nativeReserve < amt) →
      U64_MAX < d.amount + amt →
      exec (.transfer src dst amt auth sg) l = .err .NumericOverflow l) ∧
    (∀ ms dst amt : Nat, ∀ sg : List PublicKey, ∀ l : Ledger, ∀ mt : Mint,
      ∀ d : TokenAccount, l.mints[ms]? = some mt → l.accounts[dst]? = some d →
      mt.isInitialized = true → d.state = AccountState.Initialized →
      d.mint = ms → U64_MAX < mt.supply + amt →
      exec (.mintTo ms dst amt sg) l = .err .NumericOverflow l) ∧
    (∀ slot amt : Nat, ∀ auth : Authority, ∀ sg : List PublicKey,
      ∀ l : Ledger, ∀ a : TokenAccount, ∀ mt : Mint,
      l.accounts[slot]? = some a → a.state = AccountState.Initialized →
      a.isNative = false → ¬ a.amount < amt → l.mints[a.mint]? = some mt →
      mt.supply < amt →
      exec (.burn slot amt auth sg) l = .err .NumericOverflow l) :=
  ⟨execPreservesRange, transferOverflowFails, mintToOverflowFails,
    burnSupplyUnderflowFails⟩
